import Mathlib

/-!
Shallow embedding of the PokemonTrading contract: a ledger-and-escrow
engine for unique assets ("cards") with fixed-price sales, timed
ascending-bid auctions with a commit-reveal bid path, a pull-payment
ledger, a global pause switch and a re-entrancy guard.

Modelling conventions:
* Addresses, token ids, wei amounts, timestamps and bytes32 values are
  `Nat`; the zero address / empty bytes32 is `0`.
* Solidity mappings are total functions with the zero value as default.
* A reverting call is `Except.error e`: the caller's state is the state
  before the call, so "revert leaves all state unchanged" holds by
  construction.
* Solidity 0.8 checked arithmetic reverts on overflow; additions and
  multiplications that the compiler checks carry an explicit guard
  against `U256` here (the guard's position relative to an external
  call is unobservable because a revert discards all effects).
* The ERC721 custody interface and the ether dispatch performed by
  `withdraw` are external collaborators; operations take them as
  function parameters that receive the engine state at the moment of
  the call (which is how a re-entrant callee would observe it).
  `nftTransfer` is the honest custody behaviour: `transferFrom`
  succeeds exactly when `from` is the current owner.
* `block.timestamp` is an explicit `now` argument.
-/

namespace PokemonTrading

/-- Solidity `uint256` arithmetic reverts at this bound. -/
def U256 : Nat := 2 ^ 256

/-- `MIN_BID_INCREMENT_BPS = 500` (5%, in basis points). -/
def MIN_BID_INCREMENT_BPS : Nat := 500

/-- `AUCTION_EXTENSION_DURATION = 5 minutes` (in seconds). -/
def AUCTION_EXTENSION_DURATION : Nat := 300

/-- `MAX_AUCTION_DURATION = 30 days` (in seconds). -/
def MAX_AUCTION_DURATION : Nat := 2592000

/-- The `1 minutes` lower duration bound in `startAuction`. -/
def MIN_AUCTION_DURATION : Nat := 60

/-- The engine's own address (`address(this)`), custodian of escrowed cards. -/
def engineAddr : Nat := 1

structure Listing where
  seller : Nat
  price : Nat
  active : Bool
deriving Repr, DecidableEq

structure Auction where
  seller : Nat
  startingPrice : Nat
  highestBid : Nat
  highestBidder : Nat
  endTime : Nat
  settled : Bool
deriving Repr, DecidableEq

/-- Pointwise update of a mapping. -/
def upd {α : Type} (f : Nat → α) (k : Nat) (v : α) : Nat → α :=
  fun x => if x = k then v else f x

/-- Pointwise update of a two-key mapping. -/
def upd2 {α : Type} (f : Nat → Nat → α) (k1 k2 : Nat) (v : α) : Nat → Nat → α :=
  fun x y => if x = k1 ∧ y = k2 then v else f x y

/-- The contract's revert conditions. `enforcedPause` is the error of the
`whenNotPaused` modifier, `reentrant` the error of the `nonReentrant`
modifier, `overflow` the checked-arithmetic panic; `transferFailed`
covers a refused custody transfer or a refused fund dispatch. -/
inductive Err where
  | notCardOwner
  | priceMustBePositive
  | alreadyListed
  | notSeller
  | notListed
  | insufficientPayment
  | invalidStartingPrice
  | durationTooShort
  | durationTooLong
  | auctionAlreadyExists
  | auctionEnded
  | auctionAlreadySettled
  | bidBelowStartingPrice
  | bidBelowMinimumIncrement
  | auctionNotEnded
  | alreadySettled
  | nothingToWithdraw
  | transferFailed
  | invalidCommitment
  | enforcedPause
  | reentrant
  | overflow
deriving Repr, DecidableEq

/-- Full engine state: the four tables of the contract, the NFT
contract's ownership view, the pause flag and the re-entrancy lock. -/
structure TradingState where
  listings : Nat → Listing
  auctions : Nat → Auction
  pendingWithdrawals : Nat → Nat
  bidCommitments : Nat → Nat → Nat
  owners : Nat → Nat
  paused : Bool
  locked : Bool

/-- External custody interface: given the engine state at the moment of
the call, a source, a destination and a token id, either performs the
transfer (returning the new state) or refuses (`none`). -/
def CustodyCb : Type := TradingState → Nat → Nat → Nat → Option TradingState

/-- The honest ERC721 `transferFrom`: succeeds exactly when the source
is the current owner. -/
def nftTransfer : CustodyCb :=
  fun s f t id =>
    if s.owners id = f then some { s with owners := upd s.owners id t } else none

/-- External fund dispatch (`msg.sender.call{value: amount}("")`): given
the engine state at the moment of the call, the recipient and the
amount, either succeeds (returning the possibly-changed state, since the
recipient may run arbitrary code) or fails (`none`). -/
def Dispatch : Type := TradingState → Nat → Nat → Option TradingState

/-- `keccak256(abi.encodePacked(bidder, tokenId, amount, nonce))`,
modelled as an injective encoding; it is never `0`, mirroring the fact
that `0` is the empty-slot default of the commitment table. -/
def commitHash (bidder tokenId amount nonce : Nat) : Nat :=
  Nat.pair (Nat.pair bidder tokenId) (Nat.pair amount nonce) + 1

/-- `listCard(tokenId, price)` with `msg.sender = caller`. -/
def listCard (cb : CustodyCb) (s : TradingState) (tokenId caller price : Nat) :
    Except Err TradingState :=
  if s.paused then .error .enforcedPause
  else if s.locked then .error .reentrant
  else if (s.listings tokenId).active then .error .alreadyListed
  else if s.owners tokenId ≠ caller then .error .notCardOwner
  else if price = 0 then .error .priceMustBePositive
  else
    match cb { s with locked := true } caller engineAddr tokenId with
    | none => .error .transferFailed
    | some s1 =>
      .ok { s1 with
            listings := upd s1.listings tokenId
              { seller := caller, price := price, active := true }
            locked := false }

/-- `unlistCard(tokenId)` with `msg.sender = caller`. -/
def unlistCard (cb : CustodyCb) (s : TradingState) (tokenId caller : Nat) :
    Except Err TradingState :=
  if s.paused then .error .enforcedPause
  else if s.locked then .error .reentrant
  else if ¬ (s.listings tokenId).active then .error .notListed
  else if (s.listings tokenId).seller ≠ caller then .error .notSeller
  else
    let s1 := { s with
      listings := upd s.listings tokenId { s.listings tokenId with active := false }
      locked := true }
    match cb s1 engineAddr caller tokenId with
    | none => .error .transferFailed
    | some s2 => .ok { s2 with locked := false }

/-- `buyCard(tokenId)` with `msg.sender = buyer`, `msg.value = payment`. -/
def buyCard (cb : CustodyCb) (s : TradingState) (tokenId buyer payment : Nat) :
    Except Err TradingState :=
  if s.paused then .error .enforcedPause
  else if s.locked then .error .reentrant
  else
    let listing := s.listings tokenId
    if ¬ listing.active then .error .notListed
    else if payment < listing.price then .error .insufficientPayment
    else if U256 ≤ s.pendingWithdrawals listing.seller + listing.price then .error .overflow
    else
      let w1 := upd s.pendingWithdrawals listing.seller
        (s.pendingWithdrawals listing.seller + listing.price)
      let excess := payment - listing.price
      if 0 < excess ∧ U256 ≤ w1 buyer + excess then .error .overflow
      else
        let w2 := if 0 < excess then upd w1 buyer (w1 buyer + excess) else w1
        let s1 := { s with
          listings := upd s.listings tokenId { listing with active := false }
          pendingWithdrawals := w2
          locked := true }
        match cb s1 engineAddr buyer tokenId with
        | none => .error .transferFailed
        | some s2 => .ok { s2 with locked := false }

/-- `startAuction(tokenId, startingPrice, duration)` with
`msg.sender = caller`, `block.timestamp = now`. -/
def startAuction (cb : CustodyCb) (s : TradingState)
    (now tokenId caller startingPrice duration : Nat) :
    Except Err TradingState :=
  if s.paused then .error .enforcedPause
  else if s.locked then .error .reentrant
  else if s.owners tokenId ≠ caller then .error .notCardOwner
  else if startingPrice = 0 then .error .invalidStartingPrice
  else if duration < MIN_AUCTION_DURATION then .error .durationTooShort
  else if MAX_AUCTION_DURATION < duration then .error .durationTooLong
  else if (s.auctions tokenId).endTime ≠ 0 ∧ (s.auctions tokenId).settled = false then
    .error .auctionAlreadyExists
  else if U256 ≤ now + duration then .error .overflow
  else
    match cb { s with locked := true } caller engineAddr tokenId with
    | none => .error .transferFailed
    | some s1 =>
      .ok { s1 with
        auctions := upd s1.auctions tokenId
          { seller := caller
            startingPrice := startingPrice
            highestBid := 0
            highestBidder := 0
            endTime := now + duration
            settled := false }
        locked := false }

/-- The minimum accepted bid: the starting price while no bidder
exists, otherwise `highestBid + highestBid * MIN_BID_INCREMENT_BPS /
10000` (integer division truncates). The checked-arithmetic guards of
the source expression appear at its use sites. -/
def minBid (a : Auction) : Nat :=
  if a.highestBidder = 0 then a.startingPrice
  else a.highestBid + a.highestBid * MIN_BID_INCREMENT_BPS / 10000

/-- `placeBid(tokenId)` with `msg.sender = bidder`, `msg.value = value`,
`block.timestamp = now`. -/
def placeBid (s : TradingState) (now tokenId bidder value : Nat) :
    Except Err TradingState :=
  if s.paused then .error .enforcedPause
  else if s.locked then .error .reentrant
  else if (s.auctions tokenId).endTime = 0 then .error .notListed
  else if (s.auctions tokenId).endTime ≤ now then .error .auctionEnded
  else if (s.auctions tokenId).settled then .error .auctionAlreadySettled
  else if value < (s.auctions tokenId).startingPrice then .error .bidBelowStartingPrice
  else if (s.auctions tokenId).highestBidder ≠ 0 ∧
      U256 ≤ (s.auctions tokenId).highestBid * MIN_BID_INCREMENT_BPS then .error .overflow
  else if (s.auctions tokenId).highestBidder ≠ 0 ∧
      U256 ≤ (s.auctions tokenId).highestBid
        + (s.auctions tokenId).highestBid * MIN_BID_INCREMENT_BPS / 10000 then .error .overflow
  else if value < minBid (s.auctions tokenId) then .error .bidBelowMinimumIncrement
  else if (s.auctions tokenId).highestBidder ≠ 0 ∧
      U256 ≤ s.pendingWithdrawals (s.auctions tokenId).highestBidder
        + (s.auctions tokenId).highestBid then
    .error .overflow
  else if (s.auctions tokenId).endTime - now ≤ AUCTION_EXTENSION_DURATION ∧
      U256 ≤ now + AUCTION_EXTENSION_DURATION then .error .overflow
  else
    .ok { s with
      auctions := upd s.auctions tokenId
        { s.auctions tokenId with
          highestBid := value
          highestBidder := bidder
          endTime := if (s.auctions tokenId).endTime - now ≤ AUCTION_EXTENSION_DURATION
            then now + AUCTION_EXTENSION_DURATION else (s.auctions tokenId).endTime }
      pendingWithdrawals := if (s.auctions tokenId).highestBidder ≠ 0 then
          upd s.pendingWithdrawals (s.auctions tokenId).highestBidder
            (s.pendingWithdrawals (s.auctions tokenId).highestBidder
              + (s.auctions tokenId).highestBid)
        else s.pendingWithdrawals }

/-- `commitBid(tokenId, commitment)` with `msg.sender = bidder`. -/
def commitBid (s : TradingState) (now tokenId bidder commitment : Nat) :
    Except Err TradingState :=
  if s.paused then .error .enforcedPause
  else if s.locked then .error .reentrant
  else
    let auction := s.auctions tokenId
    if auction.endTime = 0 then .error .notListed
    else if auction.endTime ≤ now then .error .auctionEnded
    else if auction.settled then .error .auctionAlreadySettled
    else .ok { s with bidCommitments := upd2 s.bidCommitments tokenId bidder commitment }

/-- `placeBidReveal(tokenId, amount, nonce)` with `msg.sender = bidder`,
`msg.value = value`, `block.timestamp = now`. -/
def placeBidReveal (s : TradingState) (now tokenId bidder amount nonce value : Nat) :
    Except Err TradingState :=
  if s.paused then .error .enforcedPause
  else if s.locked then .error .reentrant
  else if s.bidCommitments tokenId bidder ≠ commitHash bidder tokenId amount nonce then
    .error .invalidCommitment
  -- past this point the stored commitment is deleted (single-use); on
  -- any later revert the deletion is rolled back with everything else
  else if (s.auctions tokenId).endTime = 0 then .error .notListed
  else if (s.auctions tokenId).endTime ≤ now then .error .auctionEnded
  else if (s.auctions tokenId).settled then .error .auctionAlreadySettled
  else if value < amount then .error .insufficientPayment
  else if amount < (s.auctions tokenId).startingPrice then .error .bidBelowStartingPrice
  else if (s.auctions tokenId).highestBidder ≠ 0 ∧
      U256 ≤ (s.auctions tokenId).highestBid * MIN_BID_INCREMENT_BPS then .error .overflow
  else if (s.auctions tokenId).highestBidder ≠ 0 ∧
      U256 ≤ (s.auctions tokenId).highestBid
        + (s.auctions tokenId).highestBid * MIN_BID_INCREMENT_BPS / 10000 then .error .overflow
  else if amount < minBid (s.auctions tokenId) then .error .bidBelowMinimumIncrement
  else if (s.auctions tokenId).highestBidder ≠ 0 ∧
      U256 ≤ s.pendingWithdrawals (s.auctions tokenId).highestBidder
        + (s.auctions tokenId).highestBid then
    .error .overflow
  else if 0 < value - amount ∧
      U256 ≤ (if (s.auctions tokenId).highestBidder ≠ 0 then
          upd s.pendingWithdrawals (s.auctions tokenId).highestBidder
            (s.pendingWithdrawals (s.auctions tokenId).highestBidder
              + (s.auctions tokenId).highestBid)
        else s.pendingWithdrawals) bidder + (value - amount) then
    .error .overflow
  else if (s.auctions tokenId).endTime - now ≤ AUCTION_EXTENSION_DURATION ∧
      U256 ≤ now + AUCTION_EXTENSION_DURATION then .error .overflow
  else
    .ok { s with
      bidCommitments := upd2 s.bidCommitments tokenId bidder 0
      auctions := upd s.auctions tokenId
        { s.auctions tokenId with
          highestBid := amount
          highestBidder := bidder
          endTime := if (s.auctions tokenId).endTime - now ≤ AUCTION_EXTENSION_DURATION
            then now + AUCTION_EXTENSION_DURATION else (s.auctions tokenId).endTime }
      pendingWithdrawals := if 0 < value - amount then
          upd (if (s.auctions tokenId).highestBidder ≠ 0 then
              upd s.pendingWithdrawals (s.auctions tokenId).highestBidder
                (s.pendingWithdrawals (s.auctions tokenId).highestBidder
                  + (s.auctions tokenId).highestBid)
            else s.pendingWithdrawals) bidder
            ((if (s.auctions tokenId).highestBidder ≠ 0 then
                upd s.pendingWithdrawals (s.auctions tokenId).highestBidder
                  (s.pendingWithdrawals (s.auctions tokenId).highestBidder
                    + (s.auctions tokenId).highestBid)
              else s.pendingWithdrawals) bidder + (value - amount))
        else if (s.auctions tokenId).highestBidder ≠ 0 then
          upd s.pendingWithdrawals (s.auctions tokenId).highestBidder
            (s.pendingWithdrawals (s.auctions tokenId).highestBidder
              + (s.auctions tokenId).highestBid)
        else s.pendingWithdrawals }

/-- `settleAuction(tokenId)` with `block.timestamp = now`; the caller's
identity is irrelevant (permissionless finalization). Note that the
`settled` flag is written before the custody callback runs. -/
def settleAuction (cb : CustodyCb) (s : TradingState) (now tokenId : Nat) :
    Except Err TradingState :=
  if s.paused then .error .enforcedPause
  else if s.locked then .error .reentrant
  else
    let auction := s.auctions tokenId
    if auction.endTime = 0 then .error .notListed
    else if now < auction.endTime then .error .auctionNotEnded
    else if auction.settled then .error .alreadySettled
    else
      let s1 := { s with
        auctions := upd s.auctions tokenId { auction with settled := true }
        locked := true }
      if auction.highestBidder ≠ 0 then
        if U256 ≤ s.pendingWithdrawals auction.seller + auction.highestBid then
          .error .overflow
        else
          let s2 := { s1 with
            pendingWithdrawals := upd s.pendingWithdrawals auction.seller
              (s.pendingWithdrawals auction.seller + auction.highestBid) }
          match cb s2 engineAddr auction.highestBidder tokenId with
          | none => .error .transferFailed
          | some s3 => .ok { s3 with locked := false }
      else
        match cb s1 engineAddr auction.seller tokenId with
        | none => .error .transferFailed
        | some s2 => .ok { s2 with locked := false }

/-- `withdraw()` with `msg.sender = caller`; returns the paid-out
amount. Note there is no `whenNotPaused` modifier on `withdraw` in the
source — only `nonReentrant`. The balance is zeroed before the dispatch
runs, and the dispatch receives the state with the zeroed balance. -/
def withdraw (d : Dispatch) (s : TradingState) (caller : Nat) :
    Except Err (TradingState × Nat) :=
  if s.locked then .error .reentrant
  else
    let amount := s.pendingWithdrawals caller
    if amount = 0 then .error .nothingToWithdraw
    else
      let s1 := { s with
        pendingWithdrawals := upd s.pendingWithdrawals caller 0
        locked := true }
      match d s1 caller amount with
      | none => .error .transferFailed
      | some s2 => .ok ({ s2 with locked := false }, amount)

/-- The all-default state: empty tables, unpaused, unlocked. -/
def initState : TradingState where
  listings := fun _ => { seller := 0, price := 0, active := false }
  auctions := fun _ =>
    { seller := 0, startingPrice := 0, highestBid := 0, highestBidder := 0
      endTime := 0, settled := false }
  pendingWithdrawals := fun _ => 0
  bidCommitments := fun _ _ => 0
  owners := fun _ => 0
  paused := false
  locked := false

/-! Concrete fixtures used to instantiate the theorems below. -/

/-- A dispatch that accepts the funds and runs no further code. -/
def dispatchOk : Dispatch := fun st _ _ => some st

/-- A dispatch that rejects the funds. -/
def dispatchFail : Dispatch := fun _ _ _ => none

/-- Party 2 owns card 5; nothing listed. -/
def wOwn : TradingState := { initState with owners := upd initState.owners 5 2 }

/-- A live auction on card 1: seller 2, starting price 5, highest bid 10
by party 3, ending at time 1000; the engine holds custody. -/
def wAuct : TradingState :=
  { initState with
    auctions := upd initState.auctions 1
      { seller := 2, startingPrice := 5, highestBid := 10, highestBidder := 3
        endTime := 1000, settled := false }
    owners := upd initState.owners 1 engineAddr }

/-- Same auction but ending at time 100 (a bid at time 99 lands inside
the extension window). -/
def wAuctLate : TradingState :=
  { initState with
    auctions := upd initState.auctions 1
      { seller := 2, startingPrice := 5, highestBid := 10, highestBidder := 3
        endTime := 100, settled := false }
    owners := upd initState.owners 1 engineAddr }

/-- An auction on card 1 with no bids yet, ended (endTime 100). -/
def wNoBid : TradingState :=
  { initState with
    auctions := upd initState.auctions 1
      { seller := 2, startingPrice := 5, highestBid := 0, highestBidder := 0
        endTime := 100, settled := false }
    owners := upd initState.owners 1 engineAddr }

/-- A settled prior auction on card 1; party 2 owns the card again. -/
def wSettled : TradingState :=
  { initState with
    auctions := upd initState.auctions 1
      { seller := 2, startingPrice := 5, highestBid := 0, highestBidder := 0
        endTime := 100, settled := true }
    owners := upd initState.owners 1 2 }

/-- Party 4 has a pending balance of 5. -/
def wBal : TradingState :=
  { initState with pendingWithdrawals := upd initState.pendingWithdrawals 4 5 }

/-- Party 4 has a pending balance of 5 and the engine is paused. -/
def wBalPaused : TradingState := { wBal with paused := true }

/-- The auction fixture with a stored commitment by party 4 for a bid of
20 with nonce 7 on card 1. -/
def wCommit : TradingState :=
  { wAuct with bidCommitments := upd2 wAuct.bidCommitments 1 4 (commitHash 4 1 20 7) }

/-- Commitment by party 4 for a bid of exactly 10 (the floor minimum
over the highest bid 10) with nonce 7 on card 1. -/
def wCommitMin : TradingState :=
  { wAuct with bidCommitments := upd2 wAuct.bidCommitments 1 4 (commitHash 4 1 10 7) }

/-- Commitment by party 4 for a bid of 9 (below the floor minimum)
with nonce 7 on card 1. -/
def wCommitLow : TradingState :=
  { wAuct with bidCommitments := upd2 wAuct.bidCommitments 1 4 (commitHash 4 1 9 7) }

/-! Helper lemmas about mapping updates. -/

theorem upd_same {α : Type} (f : Nat → α) (k : Nat) (v : α) : upd f k v k = v := by
  simp [upd]

theorem upd_other {α : Type} (f : Nat → α) (k x : Nat) (v : α) (h : x ≠ k) :
    upd f k v x = f x := by
  simp [upd, h]

theorem upd2_same {α : Type} (f : Nat → Nat → α) (k1 k2 : Nat) (v : α) :
    upd2 f k1 k2 v k1 k2 = v := by
  simp [upd2]

/-- C1: `withdraw` fails with `NothingToWithdraw` on a zero balance;
otherwise it zeroes the balance before dispatching (the dispatch
receives exactly the state with the caller's balance replaced by 0 and
the re-entrancy lock set), a failed dispatch makes the whole call fail
with `TransferFailed` (an `Except.error` retains the pre-call state, so
the balance is restored), and a re-entrant nested `withdraw` issued
while the dispatch runs sees a zero balance and fails — with the
re-entrancy guard up it fails `Reentrant`, and even with the guard down
it fails `NothingToWithdraw` — so at most one payout per call succeeds. -/
theorem withdraw_zero_before_send (d : Dispatch) (s : TradingState) (p : Nat)
    (hl : s.locked = false) :
    (s.pendingWithdrawals p = 0 → withdraw d s p = .error .nothingToWithdraw)
    ∧ (s.pendingWithdrawals p ≠ 0 →
        ((upd s.pendingWithdrawals p 0) p = 0
        ∧ withdraw d s p =
            match d { s with pendingWithdrawals := upd s.pendingWithdrawals p 0
                             locked := true } p (s.pendingWithdrawals p) with
            | none => .error .transferFailed
            | some s2 => .ok ({ s2 with locked := false }, s.pendingWithdrawals p))
        ∧ (∀ d' : Dispatch,
            withdraw d' { s with pendingWithdrawals := upd s.pendingWithdrawals p 0
                                 locked := true } p = .error .reentrant)
        ∧ (∀ d' : Dispatch,
            withdraw d' { s with pendingWithdrawals := upd s.pendingWithdrawals p 0 } p
              = .error .nothingToWithdraw)) := by
  refine ⟨fun h0 => ?_, fun hne => ⟨⟨?_, ?_⟩, fun d' => ?_, fun d' => ?_⟩⟩
  · simp [withdraw, hl, h0]
  · simp [upd]
  · simp [withdraw, hl, hne]
  · simp [withdraw]
  · simp [withdraw, hl, upd]

/-- C1 witness: party 4 holds balance 5 in `wBal`; a rejecting dispatch
makes the call fail with `TransferFailed`. -/
theorem withdraw_zero_before_send_witness :
    withdraw dispatchFail wBal 4 = .error .transferFailed := by
  have h := ((withdraw_zero_before_send dispatchFail wBal 4 rfl).2 (by decide)).1.2
  exact h.trans rfl

/-- C5 counterexample: in the paused state `wBalPaused`, `withdraw`
does not fail with the `Paused` condition — it succeeds and pays out
the full balance, because the source's `withdraw` carries only
`nonReentrant` and no `whenNotPaused` modifier. -/
theorem pause_gating_cex :
    wBalPaused.paused = true
    ∧ (withdraw dispatchOk wBalPaused 4).isOk = true
    ∧ withdraw dispatchOk wBalPaused 4 ≠ .error .enforcedPause := by
  refine ⟨rfl, rfl, ?_⟩
  intro h
  simp [withdraw, wBalPaused, wBal, initState, upd, dispatchOk] at h

/-- C5 amended: while the pause switch is engaged, the eight operations
`listCard`, `unlistCard`, `buyCard`, `startAuction`, `placeBid`,
`commitBid`, `placeBidReveal` and `settleAuction` all fail with the
`Paused` condition (`Except.error` leaves the state unchanged), but
`withdraw` is not pause-gated: it can never fail with `Paused`, and
with a nonzero balance and a willing recipient it succeeds even while
paused. -/
theorem pause_blocks_mutations (cb : CustodyCb) (d : Dispatch) (s : TradingState)
    (now tok caller price sp dur amt nonce v c : Nat) (hp : s.paused = true) :
    listCard cb s tok caller price = .error .enforcedPause
    ∧ unlistCard cb s tok caller = .error .enforcedPause
    ∧ buyCard cb s tok caller v = .error .enforcedPause
    ∧ startAuction cb s now tok caller sp dur = .error .enforcedPause
    ∧ placeBid s now tok caller v = .error .enforcedPause
    ∧ commitBid s now tok caller c = .error .enforcedPause
    ∧ placeBidReveal s now tok caller amt nonce v = .error .enforcedPause
    ∧ settleAuction cb s now tok = .error .enforcedPause
    ∧ withdraw d s caller ≠ .error .enforcedPause
    ∧ (s.locked = false → s.pendingWithdrawals caller ≠ 0 →
        ∀ s2, d { s with pendingWithdrawals := upd s.pendingWithdrawals caller 0
                         locked := true } caller (s.pendingWithdrawals caller) = some s2 →
        withdraw d s caller
          = .ok ({ s2 with locked := false }, s.pendingWithdrawals caller)) := by
  refine ⟨by simp [listCard, hp], by simp [unlistCard, hp], by simp [buyCard, hp],
    by simp [startAuction, hp], by simp [placeBid, hp], by simp [commitBid, hp],
    by simp [placeBidReveal, hp], by simp [settleAuction, hp], ?_, ?_⟩
  · intro h
    simp only [withdraw] at h
    split at h
    · simp at h
    · split at h
      · simp at h
      · split at h <;> simp at h
  · intro hl hne s2 hd
    simp [withdraw, hl, hne, hd]

/-- C5 witness: a concrete paused state where every mutating operation
fails with `Paused`, while `withdraw` still pays party 4 its balance
of 5. -/
theorem pause_blocks_mutations_witness :
    listCard nftTransfer wBalPaused 5 2 10 = .error .enforcedPause
    ∧ placeBid wBalPaused 50 1 4 20 = .error .enforcedPause
    ∧ settleAuction nftTransfer wBalPaused 100 1 = .error .enforcedPause
    ∧ withdraw dispatchOk wBalPaused 4
        = .ok ({ wBalPaused with
                  pendingWithdrawals := upd wBalPaused.pendingWithdrawals 4 0
                  locked := false }, 5) := by
  have h1 := pause_blocks_mutations nftTransfer dispatchOk wBalPaused
    50 5 2 10 5 60 20 7 20 9 rfl
  have h2 := pause_blocks_mutations nftTransfer dispatchOk wBalPaused
    50 1 4 10 5 60 20 7 20 9 rfl
  refine ⟨h1.1, h2.2.2.2.2.1, h2.2.2.2.2.2.2.2.1, ?_⟩
  exact h2.2.2.2.2.2.2.2.2.2 rfl (by decide)
    ({ wBalPaused with pendingWithdrawals := upd wBalPaused.pendingWithdrawals 4 0
                       locked := true }) rfl

/-- C9: for an asset owned by the seller (positive price, not already
listed, engine unpaused and unlocked), `listCard` followed immediately
by `unlistCard` succeeds and the final state has custody of the asset
back with the original owner and the pending-withdrawal ledger exactly
as before the `list`. -/
theorem list_unlist_roundtrip (s : TradingState) (tok seller price : Nat)
    (hp : s.paused = false) (hl : s.locked = false)
    (hown : s.owners tok = seller) (hpr : price ≠ 0)
    (hact : (s.listings tok).active = false) :
    ((listCard nftTransfer s tok seller price).bind
        (fun s1 => unlistCard nftTransfer s1 tok seller)).isOk = true
    ∧ ∀ s2, (listCard nftTransfer s tok seller price).bind
        (fun s1 => unlistCard nftTransfer s1 tok seller) = .ok s2 →
        s2.owners tok = seller ∧ s2.pendingWithdrawals = s.pendingWithdrawals := by
  have h1 : listCard nftTransfer s tok seller price
      = .ok { s with
          listings := upd s.listings tok { seller := seller, price := price, active := true }
          owners := upd s.owners tok engineAddr
          locked := false } := by
    simp [listCard, nftTransfer, hp, hl, hact, hown, hpr]
  have h2 : unlistCard nftTransfer
      { s with
        listings := upd s.listings tok { seller := seller, price := price, active := true }
        owners := upd s.owners tok engineAddr
        locked := false } tok seller
      = .ok { s with
          listings := upd (upd s.listings tok { seller := seller, price := price, active := true })
            tok { seller := seller, price := price, active := false }
          owners := upd (upd s.owners tok engineAddr) tok seller
          locked := false } := by
    simp [unlistCard, nftTransfer, hp, upd_same]
  rw [h1]
  refine ⟨?_, ?_⟩
  · show (unlistCard nftTransfer _ tok seller).isOk = true
    rw [h2]
    rfl
  · intro s2 hs2
    have hs2' : unlistCard nftTransfer
        { s with
          listings := upd s.listings tok { seller := seller, price := price, active := true }
          owners := upd s.owners tok engineAddr
          locked := false } tok seller = .ok s2 := hs2
    rw [h2] at hs2'
    cases hs2'
    exact ⟨upd_same _ _ _, rfl⟩

/-- C9 witness: party 2 lists card 5 for 10 and unlists it; custody
returns to party 2 and the ledger is untouched. -/
theorem list_unlist_roundtrip_witness :
    ((listCard nftTransfer wOwn 5 2 10).bind
        (fun s1 => unlistCard nftTransfer s1 5 2)).isOk = true
    ∧ (((listCard nftTransfer wOwn 5 2 10).bind
          (fun s1 => unlistCard nftTransfer s1 5 2)).toOption.getD initState).owners 5 = 2 := by
  have h := list_unlist_roundtrip wOwn 5 2 10 rfl rfl rfl (by decide) rfl
  refine ⟨h.1, ?_⟩
  exact (h.2 _ (by rfl)).1

/-- C4: `buyCard` fails with `NotListed` on an inactive listing and
with `InsufficientPayment` when the payment is below the price; on an
active listing with sufficient payment (custody with the engine, fitting
arithmetic) it succeeds, deactivates the listing, credits the seller's
ledger with exactly the price, credits the buyer's ledger with the
positive excess `payment - price` (pull-pattern refund, no direct
transfer), and transfers custody of the card to the buyer. -/
theorem buyCard_spec (s : TradingState) (tok buyer payment : Nat)
    (hp : s.paused = false) (hl : s.locked = false) :
    ((s.listings tok).active = false →
        buyCard nftTransfer s tok buyer payment = .error .notListed)
    ∧ ((s.listings tok).active = true → payment < (s.listings tok).price →
        buyCard nftTransfer s tok buyer payment = .error .insufficientPayment)
    ∧ ((s.listings tok).active = true → (s.listings tok).price ≤ payment →
        s.owners tok = engineAddr → buyer ≠ (s.listings tok).seller →
        s.pendingWithdrawals (s.listings tok).seller + (s.listings tok).price < U256 →
        s.pendingWithdrawals buyer + (payment - (s.listings tok).price) < U256 →
        (buyCard nftTransfer s tok buyer payment).isOk = true
        ∧ ∀ s2, buyCard nftTransfer s tok buyer payment = .ok s2 →
            (s2.listings tok).active = false
            ∧ s2.pendingWithdrawals (s.listings tok).seller
                = s.pendingWithdrawals (s.listings tok).seller + (s.listings tok).price
            ∧ (0 < payment - (s.listings tok).price →
                s2.pendingWithdrawals buyer
                  = s.pendingWithdrawals buyer + (payment - (s.listings tok).price))
            ∧ s2.owners tok = buyer) := by
  refine ⟨fun hina => ?_, fun hact hlt => ?_, fun hact hpay hcust hbs hov1 hov2 => ?_⟩
  · simp [buyCard, hp, hl, hina]
  · simp [buyCard, hp, hl, hact, hlt]
  · have hnl : ¬ payment < (s.listings tok).price := Nat.not_lt.mpr hpay
    have hsb : (s.listings tok).seller ≠ buyer := Ne.symm hbs
    constructor
    · simp [buyCard, nftTransfer, hp, hl, hact, hnl, hcust,
        Nat.not_le.mpr hov1, upd, hbs, Nat.not_le.mpr hov2, Except.isOk, Except.toBool]
    · intro s2 h
      simp only [buyCard, nftTransfer, hp, hl, hact, hnl, hcust] at h
      simp [Nat.not_le.mpr hov1, upd, hbs, Nat.not_le.mpr hov2] at h
      subst h
      refine ⟨by simp [upd_same], ?_, ?_, by simp [upd_same]⟩
      · by_cases hlt2 : (s.listings tok).price < payment <;>
          simp [hlt2, upd_same, upd_other, hsb]
      · intro hexc
        have hlt2 : (s.listings tok).price < payment := by omega
        simp [hlt2, upd_same, upd_other, hbs]

/-- C4 witness: in `wOwn` party 2 lists card 5 for 10, then party 3
buys it with payment 15: party 3 owns card 5, seller ledger is 10,
buyer ledger is 5 (the refund), listing inactive. -/
theorem buyCard_spec_witness :
    ((buyCard nftTransfer
        (((listCard nftTransfer wOwn 5 2 10).toOption).getD initState) 5 3 15).isOk = true)
    ∧ ((buyCard nftTransfer
          (((listCard nftTransfer wOwn 5 2 10).toOption).getD initState) 5 3 15).toOption.getD
            initState).pendingWithdrawals 2 = 10
    ∧ ((buyCard nftTransfer
          (((listCard nftTransfer wOwn 5 2 10).toOption).getD initState) 5 3 15).toOption.getD
            initState).pendingWithdrawals 3 = 5
    ∧ ((buyCard nftTransfer
          (((listCard nftTransfer wOwn 5 2 10).toOption).getD initState) 5 3 15).toOption.getD
            initState).owners 5 = 3 := by
  have h := (buyCard_spec (((listCard nftTransfer wOwn 5 2 10).toOption).getD initState)
    5 3 15 rfl rfl).2.2 rfl (by decide) rfl (by decide) (by decide) (by decide)
  have h2 := h.2 _ (by rfl)
  exact ⟨h.1, by simpa using h2.2.1, by simpa using h2.2.2.1 (by decide), h2.2.2.2⟩

/-- C6: with the other preconditions of `startAuction` satisfied
(caller owns the card, positive starting price, duration within
bounds, fitting arithmetic, unpaused, unlocked), the call fails with
`AuctionAlreadyExists` exactly when a prior auction for the asset
exists (`endTime ≠ 0`) and is not yet settled; once the prior auction
is settled — or when no auction ever existed — the call succeeds. -/
theorem startAuction_exists_iff (s : TradingState) (now tok caller sp dur : Nat)
    (hp : s.paused = false) (hl : s.locked = false)
    (hown : s.owners tok = caller) (hsp : sp ≠ 0)
    (hdlo : MIN_AUCTION_DURATION ≤ dur) (hdhi : dur ≤ MAX_AUCTION_DURATION)
    (hov : now + dur < U256) :
    (startAuction nftTransfer s now tok caller sp dur = .error .auctionAlreadyExists
      ↔ ((s.auctions tok).endTime ≠ 0 ∧ (s.auctions tok).settled = false))
    ∧ ((s.auctions tok).settled = true →
        (startAuction nftTransfer s now tok caller sp dur).isOk = true)
    ∧ ((s.auctions tok).endTime = 0 →
        (startAuction nftTransfer s now tok caller sp dur).isOk = true) := by
  by_cases hC : (s.auctions tok).endTime ≠ 0 ∧ (s.auctions tok).settled = false
  · refine ⟨?_, fun hs => ?_, fun he => ?_⟩
    · simp [startAuction, hp, hl, hown, hsp,
        Nat.not_lt.mpr hdlo, Nat.not_lt.mpr hdhi, hC]
    · exact absurd hC (by simp [hs])
    · exact absurd hC (by simp [he])
  · refine ⟨?_, fun _ => ?_, fun _ => ?_⟩ <;>
      simp [startAuction, nftTransfer, hp, hl, hown, hsp,
        Nat.not_lt.mpr hdlo, Nat.not_lt.mpr hdhi, hC, Nat.not_le.mpr hov,
        Except.isOk, Except.toBool]

/-- C6 witness: the prior auction on card 1 in `wSettled` is settled,
so party 2 can start a new auction; in `wAuct` the prior auction is
live, so a fresh `startAuction` fails with `AuctionAlreadyExists`. -/
theorem startAuction_exists_iff_witness :
    (startAuction nftTransfer wSettled 50 1 2 5 60).isOk = true
    ∧ startAuction nftTransfer wAuct 50 1 1 5 60 = .error .auctionAlreadyExists := by
  refine ⟨(startAuction_exists_iff wSettled 50 1 2 5 60 rfl rfl rfl
    (by decide) (by decide) (by decide) (by decide)).2.1 rfl, ?_⟩
  exact (startAuction_exists_iff wAuct 50 1 1 5 60 rfl rfl rfl
    (by decide) (by decide) (by decide) (by decide)).1.mpr ⟨by decide, rfl⟩

/-- C8: `settleAuction` (caller-independent, hence callable by any
party) fails `NotListed` with no auction, `AuctionNotEnded` while
`now < endTime`, and `AlreadySettled` when already settled. The
`settled` flag is written before the external custody call: any two
custody callbacks that agree on all states whose auction for the asset
is already marked settled are indistinguishable to `settleAuction`.
On success with a highest bidder, the seller's ledger is credited with
the winning bid and custody goes to the bidder; with no bidder,
custody returns to the seller and the ledger is untouched. -/
theorem settleAuction_spec (s : TradingState) (now tok : Nat)
    (hp : s.paused = false) (hl : s.locked = false) :
    ((s.auctions tok).endTime = 0 →
        settleAuction nftTransfer s now tok = .error .notListed)
    ∧ ((s.auctions tok).endTime ≠ 0 → now < (s.auctions tok).endTime →
        settleAuction nftTransfer s now tok = .error .auctionNotEnded)
    ∧ ((s.auctions tok).endTime ≠ 0 → (s.auctions tok).endTime ≤ now →
        (s.auctions tok).settled = true →
        settleAuction nftTransfer s now tok = .error .alreadySettled)
    ∧ (∀ cb cb' : CustodyCb,
        (∀ st f t id, (st.auctions tok).settled = true → cb st f t id = cb' st f t id) →
        settleAuction cb s now tok = settleAuction cb' s now tok)
    ∧ ((s.auctions tok).endTime ≠ 0 → (s.auctions tok).endTime ≤ now →
        (s.auctions tok).settled = false → s.owners tok = engineAddr →
        (s.auctions tok).highestBidder ≠ 0 →
        s.pendingWithdrawals (s.auctions tok).seller + (s.auctions tok).highestBid < U256 →
        (settleAuction nftTransfer s now tok).isOk = true
        ∧ ∀ s2, settleAuction nftTransfer s now tok = .ok s2 →
            (s2.auctions tok).settled = true
            ∧ s2.pendingWithdrawals (s.auctions tok).seller
                = s.pendingWithdrawals (s.auctions tok).seller + (s.auctions tok).highestBid
            ∧ s2.owners tok = (s.auctions tok).highestBidder)
    ∧ ((s.auctions tok).endTime ≠ 0 → (s.auctions tok).endTime ≤ now →
        (s.auctions tok).settled = false → s.owners tok = engineAddr →
        (s.auctions tok).highestBidder = 0 →
        (settleAuction nftTransfer s now tok).isOk = true
        ∧ ∀ s2, settleAuction nftTransfer s now tok = .ok s2 →
            (s2.auctions tok).settled = true
            ∧ s2.pendingWithdrawals = s.pendingWithdrawals
            ∧ s2.owners tok = (s.auctions tok).seller) := by
  refine ⟨fun he0 => ?_, fun he0 hnlt => ?_, fun he0 hle hst => ?_,
    fun cb cb' hagree => ?_, fun he0 hle hst hcust hb hov => ?_,
    fun he0 hle hst hcust hb => ?_⟩
  · simp [settleAuction, hp, hl, he0]
  · simp [settleAuction, hp, hl, he0, hnlt]
  · simp [settleAuction, hp, hl, he0, Nat.not_lt.mpr hle, hst]
  · by_cases he0 : (s.auctions tok).endTime = 0
    · simp [settleAuction, hp, hl, he0]
    by_cases hnlt : now < (s.auctions tok).endTime
    · simp [settleAuction, hp, hl, he0, hnlt]
    by_cases hst : (s.auctions tok).settled
    · simp [settleAuction, hp, hl, he0, hnlt, hst]
    by_cases hb : (s.auctions tok).highestBidder = 0
    · simp [settleAuction, hp, hl, he0, hnlt, hst, hb]
      rw [hagree _ _ _ _ (by simp [upd_same])]
    · by_cases hov : U256 ≤ s.pendingWithdrawals (s.auctions tok).seller
          + (s.auctions tok).highestBid
      · simp [settleAuction, hp, hl, he0, hnlt, hst, hb, hov]
      · simp [settleAuction, hp, hl, he0, hnlt, hst, hb, hov]
        rw [hagree _ _ _ _ (by simp [upd_same])]
  · have hnlt : ¬ now < (s.auctions tok).endTime := Nat.not_lt.mpr hle
    constructor
    · simp [settleAuction, nftTransfer, hp, hl, he0, hnlt, hst, hb,
        Nat.not_le.mpr hov, upd_same, hcust, Except.isOk, Except.toBool]
    · intro s2 h
      simp only [settleAuction, nftTransfer, hp, hl, he0, hnlt, hst, hb] at h
      simp [Nat.not_le.mpr hov, upd_same, hcust, hnlt, hst, hb] at h
      subst h
      simp [upd_same]
  · have hnlt : ¬ now < (s.auctions tok).endTime := Nat.not_lt.mpr hle
    constructor
    · simp [settleAuction, nftTransfer, hp, hl, he0, hnlt, hst, hb,
        upd_same, hcust, Except.isOk, Except.toBool]
    · intro s2 h
      simp only [settleAuction, nftTransfer, hp, hl, he0, hnlt, hst, hb] at h
      simp [upd_same, hcust, hnlt, hst, hb] at h
      subst h
      simp [upd_same]

/-- C8 witness: settling the ended auction in `wAuct` at time 1000 pays
seller 2 the winning bid 10 and gives card 1 to bidder 3; settling the
bid-less `wNoBid` at time 100 returns card 1 to seller 2 with the
ledger untouched. -/
theorem settleAuction_spec_witness :
    (settleAuction nftTransfer wAuct 1000 1).isOk = true
    ∧ (((settleAuction nftTransfer wAuct 1000 1).toOption.getD initState).pendingWithdrawals 2
        = 10)
    ∧ ((settleAuction nftTransfer wAuct 1000 1).toOption.getD initState).owners 1 = 3
    ∧ (settleAuction nftTransfer wNoBid 100 1).isOk = true
    ∧ ((settleAuction nftTransfer wNoBid 100 1).toOption.getD initState).owners 1 = 2
    ∧ (((settleAuction nftTransfer wNoBid 100 1).toOption.getD initState).pendingWithdrawals
        = wNoBid.pendingWithdrawals) := by
  have h1 := (settleAuction_spec wAuct 1000 1 rfl rfl).2.2.2.2.1
    (by decide) (by decide) rfl rfl (by decide) (by decide)
  have h2 := (settleAuction_spec wNoBid 100 1 rfl rfl).2.2.2.2.2
    (by decide) (by decide) rfl rfl rfl
  have h1b := h1.2 _ (by rfl)
  have h2b := h2.2 _ (by rfl)
  exact ⟨h1.1, by simpa using h1b.2.1, h1b.2.2, h2.1, h2b.2.2, h2b.2.1⟩

set_option maxHeartbeats 1000000 in
/-- Inversion: a successful `placeBid` updates exactly the bid-on
auction entry, setting the new highest bid and bidder and applying the
anti-sniping end-time rule. -/
theorem placeBid_ok_auctions (s : TradingState) (now tok bidder v : Nat)
    (s' : TradingState) (h : placeBid s now tok bidder v = .ok s') :
    s'.auctions = upd s.auctions tok
      { s.auctions tok with
        highestBid := v
        highestBidder := bidder
        endTime := if (s.auctions tok).endTime - now ≤ AUCTION_EXTENSION_DURATION
          then now + AUCTION_EXTENSION_DURATION else (s.auctions tok).endTime } := by
  unfold placeBid at h
  by_cases h1 : s.paused = true
  · rw [if_pos h1] at h; exact Except.noConfusion h
  rw [if_neg h1] at h
  by_cases h2 : s.locked = true
  · rw [if_pos h2] at h; exact Except.noConfusion h
  rw [if_neg h2] at h
  by_cases h3 : (s.auctions tok).endTime = 0
  · rw [if_pos h3] at h; exact Except.noConfusion h
  rw [if_neg h3] at h
  by_cases h4 : (s.auctions tok).endTime ≤ now
  · rw [if_pos h4] at h; exact Except.noConfusion h
  rw [if_neg h4] at h
  by_cases h5 : (s.auctions tok).settled = true
  · rw [if_pos h5] at h; exact Except.noConfusion h
  rw [if_neg h5] at h
  by_cases h6 : v < (s.auctions tok).startingPrice
  · rw [if_pos h6] at h; exact Except.noConfusion h
  rw [if_neg h6] at h
  by_cases h7 : (s.auctions tok).highestBidder ≠ 0 ∧
      U256 ≤ (s.auctions tok).highestBid * MIN_BID_INCREMENT_BPS
  · rw [if_pos h7] at h; exact Except.noConfusion h
  rw [if_neg h7] at h
  by_cases h8 : (s.auctions tok).highestBidder ≠ 0 ∧
      U256 ≤ (s.auctions tok).highestBid
        + (s.auctions tok).highestBid * MIN_BID_INCREMENT_BPS / 10000
  · rw [if_pos h8] at h; exact Except.noConfusion h
  rw [if_neg h8] at h
  by_cases h9 : v < minBid (s.auctions tok)
  · rw [if_pos h9] at h; exact Except.noConfusion h
  rw [if_neg h9] at h
  by_cases h10 : (s.auctions tok).highestBidder ≠ 0 ∧
      U256 ≤ s.pendingWithdrawals (s.auctions tok).highestBidder
        + (s.auctions tok).highestBid
  · rw [if_pos h10] at h; exact Except.noConfusion h
  rw [if_neg h10] at h
  by_cases h11 : (s.auctions tok).endTime - now ≤ AUCTION_EXTENSION_DURATION ∧
      U256 ≤ now + AUCTION_EXTENSION_DURATION
  · rw [if_pos h11] at h; exact Except.noConfusion h
  rw [if_neg h11] at h
  injection h with h
  subst h
  rfl

set_option maxHeartbeats 1600000 in
/-- Inversion: a successful `placeBidReveal` performs the same auction
update as `placeBid`. -/
theorem placeBidReveal_ok_auctions (s : TradingState)
    (now tok bidder amt nonce v : Nat)
    (s' : TradingState) (h : placeBidReveal s now tok bidder amt nonce v = .ok s') :
    s'.auctions = upd s.auctions tok
      { s.auctions tok with
        highestBid := amt
        highestBidder := bidder
        endTime := if (s.auctions tok).endTime - now ≤ AUCTION_EXTENSION_DURATION
          then now + AUCTION_EXTENSION_DURATION else (s.auctions tok).endTime } := by
  unfold placeBidReveal at h
  by_cases h1 : s.paused = true
  · rw [if_pos h1] at h; exact Except.noConfusion h
  rw [if_neg h1] at h
  by_cases h2 : s.locked = true
  · rw [if_pos h2] at h; exact Except.noConfusion h
  rw [if_neg h2] at h
  by_cases h3 : s.bidCommitments tok bidder ≠ commitHash bidder tok amt nonce
  · rw [if_pos h3] at h; exact Except.noConfusion h
  rw [if_neg h3] at h
  by_cases h4 : (s.auctions tok).endTime = 0
  · rw [if_pos h4] at h; exact Except.noConfusion h
  rw [if_neg h4] at h
  by_cases h5 : (s.auctions tok).endTime ≤ now
  · rw [if_pos h5] at h; exact Except.noConfusion h
  rw [if_neg h5] at h
  by_cases h6 : (s.auctions tok).settled = true
  · rw [if_pos h6] at h; exact Except.noConfusion h
  rw [if_neg h6] at h
  by_cases h7 : v < amt
  · rw [if_pos h7] at h; exact Except.noConfusion h
  rw [if_neg h7] at h
  by_cases h8 : amt < (s.auctions tok).startingPrice
  · rw [if_pos h8] at h; exact Except.noConfusion h
  rw [if_neg h8] at h
  by_cases h9 : (s.auctions tok).highestBidder ≠ 0 ∧
      U256 ≤ (s.auctions tok).highestBid * MIN_BID_INCREMENT_BPS
  · rw [if_pos h9] at h; exact Except.noConfusion h
  rw [if_neg h9] at h
  by_cases h10 : (s.auctions tok).highestBidder ≠ 0 ∧
      U256 ≤ (s.auctions tok).highestBid
        + (s.auctions tok).highestBid * MIN_BID_INCREMENT_BPS / 10000
  · rw [if_pos h10] at h; exact Except.noConfusion h
  rw [if_neg h10] at h
  by_cases h11 : amt < minBid (s.auctions tok)
  · rw [if_pos h11] at h; exact Except.noConfusion h
  rw [if_neg h11] at h
  by_cases h12 : (s.auctions tok).highestBidder ≠ 0 ∧
      U256 ≤ s.pendingWithdrawals (s.auctions tok).highestBidder
        + (s.auctions tok).highestBid
  · rw [if_pos h12] at h; exact Except.noConfusion h
  rw [if_neg h12] at h
  by_cases h13 : 0 < v - amt ∧
      U256 ≤ (if (s.auctions tok).highestBidder ≠ 0 then
          upd s.pendingWithdrawals (s.auctions tok).highestBidder
            (s.pendingWithdrawals (s.auctions tok).highestBidder
              + (s.auctions tok).highestBid)
        else s.pendingWithdrawals) bidder + (v - amt)
  · rw [if_pos h13] at h; exact Except.noConfusion h
  rw [if_neg h13] at h
  by_cases h14 : (s.auctions tok).endTime - now ≤ AUCTION_EXTENSION_DURATION ∧
      U256 ≤ now + AUCTION_EXTENSION_DURATION
  · rw [if_pos h14] at h; exact Except.noConfusion h
  rw [if_neg h14] at h
  injection h with h
  subst h
  rfl

/-- C3: for every accepted bid, direct or revealed: if it lands when
`endTime - now ≤ AUCTION_EXTENSION_DURATION` (5 minutes) the auction's
`endTime` becomes `now + AUCTION_EXTENSION_DURATION`, and a bid landing
earlier leaves `endTime` unchanged. -/
theorem bid_antisniping_extension (s : TradingState)
    (now tok bidder amt nonce v : Nat) :
    (∀ s', placeBid s now tok bidder v = .ok s' →
        (s'.auctions tok).endTime
          = if (s.auctions tok).endTime - now ≤ AUCTION_EXTENSION_DURATION
            then now + AUCTION_EXTENSION_DURATION else (s.auctions tok).endTime)
    ∧ (∀ s', placeBidReveal s now tok bidder amt nonce v = .ok s' →
        (s'.auctions tok).endTime
          = if (s.auctions tok).endTime - now ≤ AUCTION_EXTENSION_DURATION
            then now + AUCTION_EXTENSION_DURATION else (s.auctions tok).endTime) := by
  constructor
  · intro s' h
    rw [placeBid_ok_auctions s now tok bidder v s' h, upd_same]
  · intro s' h
    rw [placeBidReveal_ok_auctions s now tok bidder amt nonce v s' h, upd_same]

/-- C3 witness: a bid at time 99 on the auction ending at 100 (inside
the 300-second window) moves `endTime` to 399; bids at time 50 on the
auction ending at 1000 (outside the window, e.g. one landing at
`endTime - extensionWindow - 1` or earlier) leave `endTime` at 1000. -/
theorem bid_antisniping_extension_witness :
    (((placeBid wAuctLate 99 1 4 20).toOption.getD initState).auctions 1).endTime = 399
    ∧ (((placeBid wAuct 50 1 4 20).toOption.getD initState).auctions 1).endTime = 1000
    ∧ (((placeBidReveal wCommit 50 1 4 20 7 20).toOption.getD
        initState).auctions 1).endTime = 1000 := by
  refine ⟨?_, ?_, ?_⟩
  · rw [(bid_antisniping_extension wAuctLate 99 1 4 20 7 20).1 _ (by rfl)]
    decide
  · rw [(bid_antisniping_extension wAuct 50 1 4 20 7 20).1 _ (by rfl)]
    decide
  · rw [(bid_antisniping_extension wCommit 50 1 4 20 7 20).2 _ (by rfl)]
    decide

/-- Inversion: a successful `listCard` leaves the auction table alone. -/
theorem listCard_ok_auctions (s : TradingState) (tok caller price : Nat)
    (s' : TradingState) (h : listCard nftTransfer s tok caller price = .ok s') :
    s'.auctions = s.auctions := by
  unfold listCard nftTransfer at h
  by_cases h1 : s.paused = true
  · rw [if_pos h1] at h; exact Except.noConfusion h
  rw [if_neg h1] at h
  by_cases h2 : s.locked = true
  · rw [if_pos h2] at h; exact Except.noConfusion h
  rw [if_neg h2] at h
  by_cases h3 : (s.listings tok).active = true
  · rw [if_pos h3] at h; exact Except.noConfusion h
  rw [if_neg h3] at h
  by_cases h4 : s.owners tok ≠ caller
  · rw [if_pos h4] at h; exact Except.noConfusion h
  rw [if_neg h4] at h
  by_cases h5 : price = 0
  · rw [if_pos h5] at h; exact Except.noConfusion h
  rw [if_neg h5] at h
  by_cases h6 : ({ s with locked := true } : TradingState).owners tok = caller
  · rw [if_pos h6] at h
    injection h with h
    subst h
    rfl
  · rw [if_neg h6] at h
    exact Except.noConfusion h

/-- Inversion: a successful `unlistCard` leaves the auction table alone. -/
theorem unlistCard_ok_auctions (s : TradingState) (tok caller : Nat)
    (s' : TradingState) (h : unlistCard nftTransfer s tok caller = .ok s') :
    s'.auctions = s.auctions := by
  unfold unlistCard nftTransfer at h
  by_cases h1 : s.paused = true
  · rw [if_pos h1] at h; exact Except.noConfusion h
  rw [if_neg h1] at h
  by_cases h2 : s.locked = true
  · rw [if_pos h2] at h; exact Except.noConfusion h
  rw [if_neg h2] at h
  by_cases h3 : ¬ (s.listings tok).active = true
  · rw [if_pos h3] at h; exact Except.noConfusion h
  rw [if_neg h3] at h
  by_cases h4 : (s.listings tok).seller ≠ caller
  · rw [if_pos h4] at h; exact Except.noConfusion h
  rw [if_neg h4] at h
  dsimp only at h
  by_cases h5 : ({ s with
      listings := upd s.listings tok { s.listings tok with active := false }
      locked := true } : TradingState).owners tok = engineAddr
  · rw [if_pos h5] at h
    injection h with h
    subst h
    rfl
  · rw [if_neg h5] at h
    exact Except.noConfusion h

/-- Inversion: a successful `buyCard` leaves the auction table alone. -/
theorem buyCard_ok_auctions (s : TradingState) (tok buyer payment : Nat)
    (s' : TradingState) (h : buyCard nftTransfer s tok buyer payment = .ok s') :
    s'.auctions = s.auctions := by
  unfold buyCard nftTransfer at h
  by_cases h1 : s.paused = true
  · rw [if_pos h1] at h; exact Except.noConfusion h
  rw [if_neg h1] at h
  by_cases h2 : s.locked = true
  · rw [if_pos h2] at h; exact Except.noConfusion h
  rw [if_neg h2] at h
  dsimp only at h
  by_cases h3 : ¬ (s.listings tok).active = true
  · rw [if_pos h3] at h; exact Except.noConfusion h
  rw [if_neg h3] at h
  by_cases h4 : payment < (s.listings tok).price
  · rw [if_pos h4] at h; exact Except.noConfusion h
  rw [if_neg h4] at h
  by_cases h5 : U256 ≤ s.pendingWithdrawals (s.listings tok).seller + (s.listings tok).price
  · rw [if_pos h5] at h; exact Except.noConfusion h
  rw [if_neg h5] at h
  by_cases h6 : 0 < payment - (s.listings tok).price ∧
      U256 ≤ upd s.pendingWithdrawals (s.listings tok).seller
        (s.pendingWithdrawals (s.listings tok).seller + (s.listings tok).price) buyer
        + (payment - (s.listings tok).price)
  · rw [if_pos h6] at h; exact Except.noConfusion h
  rw [if_neg h6] at h
  by_cases h7 : ({ s with
      listings := upd s.listings tok { s.listings tok with active := false }
      pendingWithdrawals := if 0 < payment - (s.listings tok).price then
          upd (upd s.pendingWithdrawals (s.listings tok).seller
            (s.pendingWithdrawals (s.listings tok).seller + (s.listings tok).price)) buyer
            (upd s.pendingWithdrawals (s.listings tok).seller
              (s.pendingWithdrawals (s.listings tok).seller + (s.listings tok).price) buyer
              + (payment - (s.listings tok).price))
        else
          upd s.pendingWithdrawals (s.listings tok).seller
            (s.pendingWithdrawals (s.listings tok).seller + (s.listings tok).price)
      locked := true } : TradingState).owners tok = engineAddr
  · rw [if_pos h7] at h
    injection h with h
    subst h
    rfl
  · rw [if_neg h7] at h
    exact Except.noConfusion h

/-- Inversion: a successful `commitBid` leaves the auction table alone. -/
theorem commitBid_ok_auctions (s : TradingState) (now tok bidder c : Nat)
    (s' : TradingState) (h : commitBid s now tok bidder c = .ok s') :
    s'.auctions = s.auctions := by
  unfold commitBid at h
  by_cases h1 : s.paused = true
  · rw [if_pos h1] at h; exact Except.noConfusion h
  rw [if_neg h1] at h
  by_cases h2 : s.locked = true
  · rw [if_pos h2] at h; exact Except.noConfusion h
  rw [if_neg h2] at h
  dsimp only at h
  by_cases h3 : (s.auctions tok).endTime = 0
  · rw [if_pos h3] at h; exact Except.noConfusion h
  rw [if_neg h3] at h
  by_cases h4 : (s.auctions tok).endTime ≤ now
  · rw [if_pos h4] at h; exact Except.noConfusion h
  rw [if_neg h4] at h
  by_cases h5 : (s.auctions tok).settled = true
  · rw [if_pos h5] at h; exact Except.noConfusion h
  rw [if_neg h5] at h
  injection h with h
  subst h
  rfl

/-- Inversion: a successful `withdraw` whose dispatch preserves the
auction table leaves the auction table alone. -/
theorem withdraw_ok_auctions (d : Dispatch) (s : TradingState) (caller : Nat)
    (s' : TradingState) (r : Nat)
    (hd : ∀ st p a st2, d st p a = some st2 → st2.auctions = st.auctions)
    (h : withdraw d s caller = .ok (s', r)) :
    s'.auctions = s.auctions := by
  unfold withdraw at h
  by_cases h1 : s.locked = true
  · rw [if_pos h1] at h; exact Except.noConfusion h
  rw [if_neg h1] at h
  dsimp only at h
  by_cases h2 : s.pendingWithdrawals caller = 0
  · rw [if_pos h2] at h; exact Except.noConfusion h
  rw [if_neg h2] at h
  rcases hcall : d { s with pendingWithdrawals := upd s.pendingWithdrawals caller 0
                            locked := true } caller (s.pendingWithdrawals caller) with _ | st2
  · rw [hcall] at h
    exact Except.noConfusion h
  · rw [hcall] at h
    injection h with h
    have h' : ({ st2 with locked := false } : TradingState) = s' := congrArg Prod.fst h
    subst h'
    exact hd { s with pendingWithdrawals := upd s.pendingWithdrawals caller 0
                      locked := true } caller (s.pendingWithdrawals caller) st2 hcall

/-- Inversion: a successful `settleAuction` only sets the `settled`
flag in the auction table. -/
theorem settleAuction_ok_auctions (s : TradingState) (now tok : Nat)
    (s' : TradingState) (h : settleAuction nftTransfer s now tok = .ok s') :
    s'.auctions = upd s.auctions tok { s.auctions tok with settled := true } := by
  unfold settleAuction nftTransfer at h
  by_cases h1 : s.paused = true
  · rw [if_pos h1] at h; exact Except.noConfusion h
  rw [if_neg h1] at h
  by_cases h2 : s.locked = true
  · rw [if_pos h2] at h; exact Except.noConfusion h
  rw [if_neg h2] at h
  dsimp only at h
  by_cases h3 : (s.auctions tok).endTime = 0
  · rw [if_pos h3] at h; exact Except.noConfusion h
  rw [if_neg h3] at h
  by_cases h4 : now < (s.auctions tok).endTime
  · rw [if_pos h4] at h; exact Except.noConfusion h
  rw [if_neg h4] at h
  by_cases h5 : (s.auctions tok).settled = true
  · rw [if_pos h5] at h; exact Except.noConfusion h
  rw [if_neg h5] at h
  by_cases h6 : (s.auctions tok).highestBidder ≠ 0
  · rw [if_pos h6] at h
    by_cases h7 : U256 ≤ s.pendingWithdrawals (s.auctions tok).seller
        + (s.auctions tok).highestBid
    · rw [if_pos h7] at h; exact Except.noConfusion h
    rw [if_neg h7] at h
    by_cases h8 : s.owners tok = engineAddr
    · rw [if_pos h8] at h
      injection h with h
      subst h
      rfl
    · rw [if_neg h8] at h
      exact Except.noConfusion h
  · rw [if_neg h6] at h
    by_cases h8 : s.owners tok = engineAddr
    · rw [if_pos h8] at h
      injection h with h
      subst h
      rfl
    · rw [if_neg h8] at h
      exact Except.noConfusion h

/-- Inversion: a successful `startAuction` implies no live prior
auction for the asset existed, and it overwrites exactly that asset's
auction entry. -/
theorem startAuction_ok_auctions (s : TradingState) (now tok caller sp dur : Nat)
    (s' : TradingState) (h : startAuction nftTransfer s now tok caller sp dur = .ok s') :
    ¬ ((s.auctions tok).endTime ≠ 0 ∧ (s.auctions tok).settled = false)
    ∧ s'.auctions = upd s.auctions tok
        { seller := caller, startingPrice := sp, highestBid := 0, highestBidder := 0
          endTime := now + dur, settled := false } := by
  unfold startAuction nftTransfer at h
  by_cases h1 : s.paused = true
  · rw [if_pos h1] at h; exact Except.noConfusion h
  rw [if_neg h1] at h
  by_cases h2 : s.locked = true
  · rw [if_pos h2] at h; exact Except.noConfusion h
  rw [if_neg h2] at h
  by_cases h3 : s.owners tok ≠ caller
  · rw [if_pos h3] at h; exact Except.noConfusion h
  rw [if_neg h3] at h
  by_cases h4 : sp = 0
  · rw [if_pos h4] at h; exact Except.noConfusion h
  rw [if_neg h4] at h
  by_cases h5 : dur < MIN_AUCTION_DURATION
  · rw [if_pos h5] at h; exact Except.noConfusion h
  rw [if_neg h5] at h
  by_cases h6 : MAX_AUCTION_DURATION < dur
  · rw [if_pos h6] at h; exact Except.noConfusion h
  rw [if_neg h6] at h
  by_cases h7 : (s.auctions tok).endTime ≠ 0 ∧ (s.auctions tok).settled = false
  · rw [if_pos h7] at h; exact Except.noConfusion h
  rw [if_neg h7] at h
  by_cases h8 : U256 ≤ now + dur
  · rw [if_pos h8] at h; exact Except.noConfusion h
  rw [if_neg h8] at h
  by_cases h9 : s.owners tok = caller
  · rw [if_pos h9] at h
    injection h with h
    subst h
    exact ⟨h7, rfl⟩
  · rw [if_neg h9] at h
    exact Except.noConfusion h

/-- C10: for every live (started, unsettled) auction, no operation of
the engine decreases its `endTime`: listing, unlisting, buying, bid
commitment, settlement and withdrawal (with a dispatch that does not
itself touch the auction table) leave every `endTime` unchanged;
starting an auction cannot overwrite a live one; and an accepted bid
(direct or revealed) only ever moves `endTime` forward, since the
anti-sniping branch fires exactly when `endTime - now ≤ 300` and then
sets `endTime = now + 300 ≥` the old value. -/
theorem endTime_monotone (s : TradingState)
    (now tok tok2 caller price sp dur amt nonce v c : Nat) (d : Dispatch)
    (hlive : (s.auctions tok).endTime ≠ 0) (hset : (s.auctions tok).settled = false) :
    (∀ s', listCard nftTransfer s tok2 caller price = .ok s' →
        (s'.auctions tok).endTime = (s.auctions tok).endTime)
    ∧ (∀ s', unlistCard nftTransfer s tok2 caller = .ok s' →
        (s'.auctions tok).endTime = (s.auctions tok).endTime)
    ∧ (∀ s', buyCard nftTransfer s tok2 caller v = .ok s' →
        (s'.auctions tok).endTime = (s.auctions tok).endTime)
    ∧ (∀ s', commitBid s now tok2 caller c = .ok s' →
        (s'.auctions tok).endTime = (s.auctions tok).endTime)
    ∧ (∀ s', placeBid s now tok2 caller v = .ok s' →
        (s.auctions tok).endTime ≤ (s'.auctions tok).endTime)
    ∧ (∀ s', placeBidReveal s now tok2 caller amt nonce v = .ok s' →
        (s.auctions tok).endTime ≤ (s'.auctions tok).endTime)
    ∧ (∀ s', settleAuction nftTransfer s now tok2 = .ok s' →
        (s'.auctions tok).endTime = (s.auctions tok).endTime)
    ∧ (∀ s', startAuction nftTransfer s now tok2 caller sp dur = .ok s' →
        (s'.auctions tok).endTime = (s.auctions tok).endTime)
    ∧ (∀ s' r, withdraw d s caller = .ok (s', r) →
        (∀ st p a st2, d st p a = some st2 → st2.auctions = st.auctions) →
        (s'.auctions tok).endTime = (s.auctions tok).endTime) := by
  refine ⟨fun s' h => ?_, fun s' h => ?_, fun s' h => ?_, fun s' h => ?_,
    fun s' h => ?_, fun s' h => ?_, fun s' h => ?_, fun s' h => ?_,
    fun s' r h hd => ?_⟩
  · rw [listCard_ok_auctions s tok2 caller price s' h]
  · rw [unlistCard_ok_auctions s tok2 caller s' h]
  · rw [buyCard_ok_auctions s tok2 caller v s' h]
  · rw [commitBid_ok_auctions s now tok2 caller c s' h]
  · rw [placeBid_ok_auctions s now tok2 caller v s' h]
    by_cases ht : tok = tok2
    · subst ht
      rw [upd_same]
      dsimp only
      split
      · omega
      · exact le_refl _
    · rw [upd_other _ _ _ _ ht]
  · rw [placeBidReveal_ok_auctions s now tok2 caller amt nonce v s' h]
    by_cases ht : tok = tok2
    · subst ht
      rw [upd_same]
      dsimp only
      split
      · omega
      · exact le_refl _
    · rw [upd_other _ _ _ _ ht]
  · rw [settleAuction_ok_auctions s now tok2 s' h]
    by_cases ht : tok = tok2
    · subst ht
      rw [upd_same]
    · rw [upd_other _ _ _ _ ht]
  · have h' := startAuction_ok_auctions s now tok2 caller sp dur s' h
    by_cases ht : tok = tok2
    · subst ht
      exact absurd ⟨hlive, hset⟩ h'.1
    · rw [h'.2, upd_other _ _ _ _ ht]
  · rw [withdraw_ok_auctions d s caller s' r hd h]

/-- C10 witness: the live auction on card 1 in `wAuctLate` ends at 100;
an accepted bid at time 99 moves its end time to 399, and
`100 ≤ 399`. -/
theorem endTime_monotone_witness :
    (wAuctLate.auctions 1).endTime
      ≤ (((placeBid wAuctLate 99 1 4 20).toOption.getD initState).auctions 1).endTime := by
  exact (endTime_monotone wAuctLate 99 1 1 4 10 5 60 20 7 20 9 dispatchOk
    (by decide) rfl).2.2.2.2.1 _ (by rfl)

/-- C2 counterexample: on the live auction in `wAuct` with
`highestBid = 10`, the claimed minimum `10 + ceil(10 * 5%) = 11` would
reject a bid of 10, but the code computes the increment with truncating
integer division (`10 * 500 / 10000 = 0`) and accepts the bid of 10. -/
theorem minBid_ceil_cex :
    (wAuct.auctions 1).highestBid = 10
    ∧ (10 : Nat) < 10 + (10 * 500 + 9999) / 10000
    ∧ (placeBid wAuct 50 1 4 10).isOk = true
    ∧ placeBid wAuct 50 1 4 10 ≠ .error .bidBelowMinimumIncrement := by
  refine ⟨rfl, by decide, rfl, ?_⟩
  intro h
  have hok : (placeBid wAuct 50 1 4 10).isOk = true := rfl
  rw [h] at hok
  exact Bool.noConfusion hok

/-- C2 amended: the minimum accepted bid is computed with truncating
integer division: with a highest bidder holding `highestBid = B` it is
`B + B * 500 / 10000` (i.e. `B + floor(B * 5%)`, not `B + ceil`), and
with no bidder it is `startingPrice`. On a live auction, any bid of at
least `startingPrice` but below the minimum is rejected with
`BidBelowMinimumIncrement` — for both `placeBid` and `placeBidReveal`
— and a bid of exactly the minimum is accepted. -/
theorem minBid_floor_spec (s : TradingState) (now tok bidder amt nonce v : Nat)
    (hp : s.paused = false) (hl : s.locked = false)
    (he0 : (s.auctions tok).endTime ≠ 0) (hnow : now < (s.auctions tok).endTime)
    (hst : (s.auctions tok).settled = false)
    (hovm : (s.auctions tok).highestBid * MIN_BID_INCREMENT_BPS < U256)
    (hova : (s.auctions tok).highestBid
        + (s.auctions tok).highestBid * MIN_BID_INCREMENT_BPS / 10000 < U256) :
    ((s.auctions tok).highestBidder ≠ 0 →
        minBid (s.auctions tok) = (s.auctions tok).highestBid
          + (s.auctions tok).highestBid * MIN_BID_INCREMENT_BPS / 10000)
    ∧ ((s.auctions tok).highestBidder = 0 →
        minBid (s.auctions tok) = (s.auctions tok).startingPrice)
    ∧ ((s.auctions tok).startingPrice ≤ v → v < minBid (s.auctions tok) →
        placeBid s now tok bidder v = .error .bidBelowMinimumIncrement)
    ∧ (s.bidCommitments tok bidder = commitHash bidder tok amt nonce →
        amt ≤ v → (s.auctions tok).startingPrice ≤ amt → amt < minBid (s.auctions tok) →
        placeBidReveal s now tok bidder amt nonce v = .error .bidBelowMinimumIncrement)
    ∧ ((s.auctions tok).startingPrice ≤ v → v = minBid (s.auctions tok) →
        ((s.auctions tok).highestBidder ≠ 0 →
          s.pendingWithdrawals (s.auctions tok).highestBidder
            + (s.auctions tok).highestBid < U256) →
        now + AUCTION_EXTENSION_DURATION < U256 →
        (placeBid s now tok bidder v).isOk = true)
    ∧ (s.bidCommitments tok bidder = commitHash bidder tok amt nonce →
        (s.auctions tok).startingPrice ≤ amt → amt = minBid (s.auctions tok) →
        ((s.auctions tok).highestBidder ≠ 0 →
          s.pendingWithdrawals (s.auctions tok).highestBidder
            + (s.auctions tok).highestBid < U256) →
        now + AUCTION_EXTENSION_DURATION < U256 →
        (placeBidReveal s now tok bidder amt nonce amt).isOk = true) := by
  have hended : ¬ (s.auctions tok).endTime ≤ now := Nat.not_le.mpr hnow
  have hm : ¬ ((s.auctions tok).highestBidder ≠ 0 ∧
      U256 ≤ (s.auctions tok).highestBid * MIN_BID_INCREMENT_BPS) :=
    fun hc => Nat.not_le.mpr hovm hc.2
  have ha : ¬ ((s.auctions tok).highestBidder ≠ 0 ∧
      U256 ≤ (s.auctions tok).highestBid
        + (s.auctions tok).highestBid * MIN_BID_INCREMENT_BPS / 10000) :=
    fun hc => Nat.not_le.mpr hova hc.2
  refine ⟨fun hb => by simp [minBid, hb], fun hb => by simp [minBid, hb],
    fun hsp hlt => ?_, fun hcom hva hsp hlt => ?_,
    fun hsp hmin hrefund hovt => ?_, fun hcom hsp hmin hrefund hovt => ?_⟩
  · simp [placeBid, hp, hl, he0, hended, hst, Nat.not_lt.mpr hsp, hm, ha, hlt]
  · simp [placeBidReveal, hp, hl, hcom, he0, hended, hst, Nat.not_lt.mpr hva,
      Nat.not_lt.mpr hsp, hm, ha, hlt]
  · have hrefund' : ¬ ((s.auctions tok).highestBidder ≠ 0 ∧
        U256 ≤ s.pendingWithdrawals (s.auctions tok).highestBidder
          + (s.auctions tok).highestBid) :=
      fun hc => Nat.not_le.mpr (hrefund hc.1) hc.2
    have hext : ¬ ((s.auctions tok).endTime - now ≤ AUCTION_EXTENSION_DURATION ∧
        U256 ≤ now + AUCTION_EXTENSION_DURATION) :=
      fun hc => Nat.not_le.mpr hovt hc.2
    simp [placeBid, hp, hl, he0, hended, hst, Nat.not_lt.mpr hsp, hm, ha,
      Nat.not_lt.mpr (le_of_eq hmin.symm), hrefund', hext,
      Except.isOk, Except.toBool]
    rw [if_neg (show ¬ ((s.auctions tok).endTime ≤ AUCTION_EXTENSION_DURATION + now ∧
        U256 ≤ now + AUCTION_EXTENSION_DURATION) from fun hc => Nat.not_le.mpr hovt hc.2)]
  · have hrefund' : ¬ ((s.auctions tok).highestBidder ≠ 0 ∧
        U256 ≤ s.pendingWithdrawals (s.auctions tok).highestBidder
          + (s.auctions tok).highestBid) :=
      fun hc => Nat.not_le.mpr (hrefund hc.1) hc.2
    have hext : ¬ ((s.auctions tok).endTime - now ≤ AUCTION_EXTENSION_DURATION ∧
        U256 ≤ now + AUCTION_EXTENSION_DURATION) :=
      fun hc => Nat.not_le.mpr hovt hc.2
    simp [placeBidReveal, hp, hl, hcom, he0, hended, hst, Nat.not_lt.mpr hsp, hm, ha,
      Nat.not_lt.mpr (le_of_eq hmin.symm), hrefund', hext, Nat.sub_self,
      Except.isOk, Except.toBool]
    rw [if_neg (show ¬ ((s.auctions tok).endTime ≤ AUCTION_EXTENSION_DURATION + now ∧
        U256 ≤ now + AUCTION_EXTENSION_DURATION) from fun hc => Nat.not_le.mpr hovt hc.2)]

/-- C2 witness: on `wAuct` (`highestBid = 10`, floor minimum 10), a bid
of 9 is rejected with `BidBelowMinimumIncrement` and a bid of exactly
10 is accepted — direct and revealed alike. -/
theorem minBid_floor_spec_witness :
    placeBid wAuct 50 1 4 9 = .error .bidBelowMinimumIncrement
    ∧ (placeBid wAuct 50 1 4 10).isOk = true
    ∧ placeBidReveal wCommitLow 50 1 4 9 7 9 = .error .bidBelowMinimumIncrement
    ∧ (placeBidReveal wCommitMin 50 1 4 10 7 10).isOk = true := by
  have h1 := minBid_floor_spec wAuct 50 1 4 20 7 9 rfl rfl
    (by decide) (by decide) rfl (by decide) (by decide)
  have h2 := minBid_floor_spec wAuct 50 1 4 20 7 10 rfl rfl
    (by decide) (by decide) rfl (by decide) (by decide)
  have h3 := minBid_floor_spec wCommitLow 50 1 4 9 7 9 rfl rfl
    (by decide) (by decide) rfl (by decide) (by decide)
  have h4 := minBid_floor_spec wCommitMin 50 1 4 10 7 10 rfl rfl
    (by decide) (by decide) rfl (by decide) (by decide)
  refine ⟨h1.2.2.1 (by decide) (by decide), h2.2.2.2.2.1 (by decide) (by decide)
    (fun _ => by decide) (by decide), ?_, ?_⟩
  · exact h3.2.2.2.1 (by rfl) (le_refl 9) (by decide) (by decide)
  · exact h4.2.2.2.2.2 (by rfl) (by decide) (by decide) (fun _ => by decide) (by decide)

/-- Inversion: the full success state of `placeBid`. -/
theorem placeBid_ok_state (s : TradingState) (now tok bidder v : Nat)
    (st : TradingState) (h : placeBid s now tok bidder v = .ok st) :
    st = { s with
      auctions := upd s.auctions tok
        { s.auctions tok with
          highestBid := v
          highestBidder := bidder
          endTime := if (s.auctions tok).endTime - now ≤ AUCTION_EXTENSION_DURATION
            then now + AUCTION_EXTENSION_DURATION else (s.auctions tok).endTime }
      pendingWithdrawals := if (s.auctions tok).highestBidder ≠ 0 then
          upd s.pendingWithdrawals (s.auctions tok).highestBidder
            (s.pendingWithdrawals (s.auctions tok).highestBidder
              + (s.auctions tok).highestBid)
        else s.pendingWithdrawals } := by
  unfold placeBid at h
  by_cases h1 : s.paused = true
  · rw [if_pos h1] at h; exact Except.noConfusion h
  rw [if_neg h1] at h
  by_cases h2 : s.locked = true
  · rw [if_pos h2] at h; exact Except.noConfusion h
  rw [if_neg h2] at h
  by_cases h3 : (s.auctions tok).endTime = 0
  · rw [if_pos h3] at h; exact Except.noConfusion h
  rw [if_neg h3] at h
  by_cases h4 : (s.auctions tok).endTime ≤ now
  · rw [if_pos h4] at h; exact Except.noConfusion h
  rw [if_neg h4] at h
  by_cases h5 : (s.auctions tok).settled = true
  · rw [if_pos h5] at h; exact Except.noConfusion h
  rw [if_neg h5] at h
  by_cases h6 : v < (s.auctions tok).startingPrice
  · rw [if_pos h6] at h; exact Except.noConfusion h
  rw [if_neg h6] at h
  by_cases h7 : (s.auctions tok).highestBidder ≠ 0 ∧
      U256 ≤ (s.auctions tok).highestBid * MIN_BID_INCREMENT_BPS
  · rw [if_pos h7] at h; exact Except.noConfusion h
  rw [if_neg h7] at h
  by_cases h8 : (s.auctions tok).highestBidder ≠ 0 ∧
      U256 ≤ (s.auctions tok).highestBid
        + (s.auctions tok).highestBid * MIN_BID_INCREMENT_BPS / 10000
  · rw [if_pos h8] at h; exact Except.noConfusion h
  rw [if_neg h8] at h
  by_cases h9 : v < minBid (s.auctions tok)
  · rw [if_pos h9] at h; exact Except.noConfusion h
  rw [if_neg h9] at h
  by_cases h10 : (s.auctions tok).highestBidder ≠ 0 ∧
      U256 ≤ s.pendingWithdrawals (s.auctions tok).highestBidder
        + (s.auctions tok).highestBid
  · rw [if_pos h10] at h; exact Except.noConfusion h
  rw [if_neg h10] at h
  by_cases h11 : (s.auctions tok).endTime - now ≤ AUCTION_EXTENSION_DURATION ∧
      U256 ≤ now + AUCTION_EXTENSION_DURATION
  · rw [if_pos h11] at h; exact Except.noConfusion h
  rw [if_neg h11] at h
  injection h with h
  exact h.symm

/-- Inversion: a successful `placeBidReveal` had `payment ≥ amount`,
and its full success state is the `placeBid` one with the commitment
cleared and the positive excess credited to the bidder. -/
theorem placeBidReveal_ok_state (s : TradingState)
    (now tok bidder amt nonce v : Nat)
    (st : TradingState) (h : placeBidReveal s now tok bidder amt nonce v = .ok st) :
    amt ≤ v
    ∧ st = { s with
      bidCommitments := upd2 s.bidCommitments tok bidder 0
      auctions := upd s.auctions tok
        { s.auctions tok with
          highestBid := amt
          highestBidder := bidder
          endTime := if (s.auctions tok).endTime - now ≤ AUCTION_EXTENSION_DURATION
            then now + AUCTION_EXTENSION_DURATION else (s.auctions tok).endTime }
      pendingWithdrawals := if 0 < v - amt then
          upd (if (s.auctions tok).highestBidder ≠ 0 then
              upd s.pendingWithdrawals (s.auctions tok).highestBidder
                (s.pendingWithdrawals (s.auctions tok).highestBidder
                  + (s.auctions tok).highestBid)
            else s.pendingWithdrawals) bidder
            ((if (s.auctions tok).highestBidder ≠ 0 then
                upd s.pendingWithdrawals (s.auctions tok).highestBidder
                  (s.pendingWithdrawals (s.auctions tok).highestBidder
                    + (s.auctions tok).highestBid)
              else s.pendingWithdrawals) bidder + (v - amt))
        else if (s.auctions tok).highestBidder ≠ 0 then
          upd s.pendingWithdrawals (s.auctions tok).highestBidder
            (s.pendingWithdrawals (s.auctions tok).highestBidder
              + (s.auctions tok).highestBid)
        else s.pendingWithdrawals } := by
  unfold placeBidReveal at h
  by_cases h1 : s.paused = true
  · rw [if_pos h1] at h; exact Except.noConfusion h
  rw [if_neg h1] at h
  by_cases h2 : s.locked = true
  · rw [if_pos h2] at h; exact Except.noConfusion h
  rw [if_neg h2] at h
  by_cases h3 : s.bidCommitments tok bidder ≠ commitHash bidder tok amt nonce
  · rw [if_pos h3] at h; exact Except.noConfusion h
  rw [if_neg h3] at h
  by_cases h4 : (s.auctions tok).endTime = 0
  · rw [if_pos h4] at h; exact Except.noConfusion h
  rw [if_neg h4] at h
  by_cases h5 : (s.auctions tok).endTime ≤ now
  · rw [if_pos h5] at h; exact Except.noConfusion h
  rw [if_neg h5] at h
  by_cases h6 : (s.auctions tok).settled = true
  · rw [if_pos h6] at h; exact Except.noConfusion h
  rw [if_neg h6] at h
  by_cases h7 : v < amt
  · rw [if_pos h7] at h; exact Except.noConfusion h
  rw [if_neg h7] at h
  by_cases h8 : amt < (s.auctions tok).startingPrice
  · rw [if_pos h8] at h; exact Except.noConfusion h
  rw [if_neg h8] at h
  by_cases h9 : (s.auctions tok).highestBidder ≠ 0 ∧
      U256 ≤ (s.auctions tok).highestBid * MIN_BID_INCREMENT_BPS
  · rw [if_pos h9] at h; exact Except.noConfusion h
  rw [if_neg h9] at h
  by_cases h10 : (s.auctions tok).highestBidder ≠ 0 ∧
      U256 ≤ (s.auctions tok).highestBid
        + (s.auctions tok).highestBid * MIN_BID_INCREMENT_BPS / 10000
  · rw [if_pos h10] at h; exact Except.noConfusion h
  rw [if_neg h10] at h
  by_cases h11 : amt < minBid (s.auctions tok)
  · rw [if_pos h11] at h; exact Except.noConfusion h
  rw [if_neg h11] at h
  by_cases h12 : (s.auctions tok).highestBidder ≠ 0 ∧
      U256 ≤ s.pendingWithdrawals (s.auctions tok).highestBidder
        + (s.auctions tok).highestBid
  · rw [if_pos h12] at h; exact Except.noConfusion h
  rw [if_neg h12] at h
  by_cases h13 : 0 < v - amt ∧
      U256 ≤ (if (s.auctions tok).highestBidder ≠ 0 then
          upd s.pendingWithdrawals (s.auctions tok).highestBidder
            (s.pendingWithdrawals (s.auctions tok).highestBidder
              + (s.auctions tok).highestBid)
        else s.pendingWithdrawals) bidder + (v - amt)
  · rw [if_pos h13] at h; exact Except.noConfusion h
  rw [if_neg h13] at h
  by_cases h14 : (s.auctions tok).endTime - now ≤ AUCTION_EXTENSION_DURATION ∧
      U256 ≤ now + AUCTION_EXTENSION_DURATION
  · rw [if_pos h14] at h; exact Except.noConfusion h
  rw [if_neg h14] at h
  injection h with h
  exact ⟨Nat.le_of_not_lt h7, h.symm⟩

/-- C7: `placeBidReveal` recomputes the commitment from
`(bidder, asset, amount, nonce)`; on a mismatch it fails with
`InvalidCommitment` (an `Except.error` leaves all state unchanged, so
the commitment is still stored). It additionally requires
`payment ≥ amount`, failing `InsufficientPayment` otherwise. On a match
with `payment = amount` it is exactly `placeBid` on the revealed amount
— same validation, same side effects — with the commitment cleared in
the success state; with `payment > amount` the success state further
credits the excess `payment - amount` to the bidder's ledger, and the
cleared commitment slot reads 0 (single-use). -/
theorem placeBidReveal_spec (s : TradingState) (now tok bidder amt nonce v : Nat)
    (hp : s.paused = false) (hl : s.locked = false) :
    (s.bidCommitments tok bidder ≠ commitHash bidder tok amt nonce →
        placeBidReveal s now tok bidder amt nonce v = .error .invalidCommitment)
    ∧ (s.bidCommitments tok bidder = commitHash bidder tok amt nonce →
        (s.auctions tok).endTime ≠ 0 → now < (s.auctions tok).endTime →
        (s.auctions tok).settled = false → v < amt →
        placeBidReveal s now tok bidder amt nonce v = .error .insufficientPayment)
    ∧ (s.bidCommitments tok bidder = commitHash bidder tok amt nonce →
        placeBidReveal s now tok bidder amt nonce amt
          = Except.map (fun st =>
              { st with bidCommitments := upd2 st.bidCommitments tok bidder 0 })
              (placeBid s now tok bidder amt))
    ∧ (∀ s' st, placeBidReveal s now tok bidder amt nonce v = .ok s' →
        placeBid s now tok bidder amt = .ok st →
        amt ≤ v
        ∧ s'.bidCommitments tok bidder = 0
        ∧ s' = { st with
            bidCommitments := upd2 st.bidCommitments tok bidder 0
            pendingWithdrawals := if 0 < v - amt then
                upd st.pendingWithdrawals bidder
                  (st.pendingWithdrawals bidder + (v - amt))
              else st.pendingWithdrawals }) := by
  refine ⟨fun hmis => ?_, fun hcom he0 hnow hst hva => ?_, fun hcom => ?_,
    fun s' st h1 h2 => ?_⟩
  · simp [placeBidReveal, hp, hl, hmis]
  · simp [placeBidReveal, hp, hl, hcom, he0, Nat.not_le.mpr hnow, hst, hva]
  · have hcne : ¬ (s.bidCommitments tok bidder ≠ commitHash bidder tok amt nonce) :=
      fun hC => hC hcom
    have hp' : ¬ s.paused = true := by simp [hp]
    have hl' : ¬ s.locked = true := by simp [hl]
    unfold placeBidReveal placeBid
    rw [if_neg hp', if_neg hp', if_neg hl', if_neg hl', if_neg hcne,
        if_neg (lt_irrefl amt)]
    by_cases c1 : (s.auctions tok).endTime = 0
    · rw [if_pos c1, if_pos c1]; rfl
    rw [if_neg c1, if_neg c1]
    by_cases c2 : (s.auctions tok).endTime ≤ now
    · rw [if_pos c2, if_pos c2]; rfl
    rw [if_neg c2, if_neg c2]
    by_cases c3 : (s.auctions tok).settled = true
    · rw [if_pos c3, if_pos c3]; rfl
    rw [if_neg c3, if_neg c3]
    by_cases c4 : amt < (s.auctions tok).startingPrice
    · rw [if_pos c4, if_pos c4]; rfl
    rw [if_neg c4, if_neg c4]
    by_cases c5 : (s.auctions tok).highestBidder ≠ 0 ∧
        U256 ≤ (s.auctions tok).highestBid * MIN_BID_INCREMENT_BPS
    · rw [if_pos c5, if_pos c5]; rfl
    rw [if_neg c5, if_neg c5]
    by_cases c6 : (s.auctions tok).highestBidder ≠ 0 ∧
        U256 ≤ (s.auctions tok).highestBid
          + (s.auctions tok).highestBid * MIN_BID_INCREMENT_BPS / 10000
    · rw [if_pos c6, if_pos c6]; rfl
    rw [if_neg c6, if_neg c6]
    by_cases c7 : amt < minBid (s.auctions tok)
    · rw [if_pos c7, if_pos c7]; rfl
    rw [if_neg c7, if_neg c7]
    by_cases c8 : (s.auctions tok).highestBidder ≠ 0 ∧
        U256 ≤ s.pendingWithdrawals (s.auctions tok).highestBidder
          + (s.auctions tok).highestBid
    · rw [if_pos c8, if_pos c8]; rfl
    rw [if_neg c8, if_neg c8]
    by_cases c9 : (s.auctions tok).endTime - now ≤ AUCTION_EXTENSION_DURATION ∧
        U256 ≤ now + AUCTION_EXTENSION_DURATION
    · rw [if_pos c9, if_pos c9]
      simp [Except.map, Nat.sub_self]
    · rw [if_neg c9, if_neg c9]
      simp [Except.map, Nat.sub_self]
  · obtain ⟨hle, e1⟩ := placeBidReveal_ok_state s now tok bidder amt nonce v s' h1
    have e2 := placeBid_ok_state s now tok bidder amt st h2
    subst e1
    subst e2
    exact ⟨hle, upd2_same _ _ _ _, rfl⟩

/-- C7 witness: on `wCommit` (stored commitment for a bid of 20 with
nonce 7 by party 4 on card 1): revealing 21 fails `InvalidCommitment`;
revealing 20 with payment 15 fails `InsufficientPayment`; revealing 20
with payment 20 equals `placeBid` of 20 with the commitment cleared;
and revealing 20 with payment 25 succeeds with the commitment slot
zeroed. -/
theorem placeBidReveal_spec_witness :
    placeBidReveal wCommit 50 1 4 21 7 25 = .error .invalidCommitment
    ∧ placeBidReveal wCommit 50 1 4 20 7 15 = .error .insufficientPayment
    ∧ placeBidReveal wCommit 50 1 4 20 7 20
        = Except.map (fun st =>
            { st with bidCommitments := upd2 st.bidCommitments 1 4 0 })
            (placeBid wCommit 50 1 4 20)
    ∧ ((placeBidReveal wCommit 50 1 4 20 7 25).toOption.getD
        initState).bidCommitments 1 4 = 0 := by
  have ha := placeBidReveal_spec wCommit 50 1 4 21 7 25 rfl rfl
  have hb := placeBidReveal_spec wCommit 50 1 4 20 7 15 rfl rfl
  have hc := placeBidReveal_spec wCommit 50 1 4 20 7 20 rfl rfl
  have hd := placeBidReveal_spec wCommit 50 1 4 20 7 25 rfl rfl
  refine ⟨ha.1 (by decide), hb.2.1 (by rfl) (by decide) (by decide) rfl (by decide),
    hc.2.2.1 (by rfl), ?_⟩
  exact (hd.2.2.2 _ _ (by rfl) (by rfl)).2.1

end PokemonTrading
